import Mathlib

/-!
Verification of the deprecated contract class module
(`src/deprecated_contract_class.rs`) of the starknet-api repository.

The Rust code is shallowly embedded: `usize` is modelled as `Nat` together
with the explicit 64-bit bound `USIZE_MAX`; JSON trees (`serde_json::Value`)
are an inductive `Json`; fallible Rust functions return `Except`.
-/

deriving instance DecidableEq for Except

/-- The maximum value of the target unsigned width (`usize` on a 64-bit
target, as used by `number_or_string` and `usize_to_hex`). -/
def USIZE_MAX : Nat := 2 ^ 64 - 1

/-- Rust `char::to_digit(16)`: hex digit value of a character, both cases
accepted, `none` for non-hex-digit characters. -/
def hexDigitVal (c : Char) : Option Nat :=
  if '0' ≤ c ∧ c ≤ '9' then some (c.toNat - '0'.toNat)
  else if 'a' ≤ c ∧ c ≤ 'f' then some (c.toNat - 'a'.toNat + 10)
  else if 'A' ≤ c ∧ c ≤ 'F' then some (c.toNat - 'A'.toNat + 10)
  else none

/-- A character is a lower-case hex digit (`0`-`9` or `a`-`f`); the canonical
output alphabet of Rust's `{:#x}` formatting. -/
def isLowerHexDigit (c : Char) : Bool :=
  if ('0' ≤ c ∧ c ≤ '9') ∨ ('a' ≤ c ∧ c ≤ 'f') then true else false

/-- A character accepted by base-16 `from_str_radix` digit parsing. -/
def hexOk (c : Char) : Bool := (hexDigitVal c).isSome

/-- One accumulator step of base-16 digit folding (most significant first). -/
def hexStep (acc : Nat) (c : Char) : Nat := acc * 16 + (hexDigitVal c).getD 0

/-- Fuel-driven core of Rust's `{:x}` integer formatting: repeatedly divide
by 16, emitting digits least-significant first onto `acc`. -/
def toHexCore : Nat → Nat → List Char → List Char
  | 0, _, acc => acc
  | fuel + 1, n, acc =>
    if n / 16 = 0 then Nat.digitChar (n % 16) :: acc
    else toHexCore fuel (n / 16) (Nat.digitChar (n % 16) :: acc)

/-- The lower-case base-16 digit string of `n`, most significant digit first,
`"0"` for zero (digit part of Rust's `format!` with the `{:#x}` spec). -/
def natToHexChars (n : Nat) : List Char := toHexCore (n + 1) n []

/-- Rust `usize_to_hex` (modulo the serializer plumbing): the serialized
string is `format!` with the `{:#x}` spec, i.e. `0x` followed by the
lower-case hex digits of the value. -/
def usize_to_hex (n : Nat) : String := String.mk ('0' :: 'x' :: natToHexChars n)

/-- Rust `std::num::ParseIntError` kinds reachable from base-16 `usize`
parsing. -/
inductive ParseIntError
  | empty
  | invalidDigit
  | posOverflow
deriving DecidableEq, Repr

/-- The `Display` text of each `ParseIntError`, as Rust prints it. -/
def ParseIntError.description : ParseIntError → String
  | .empty => "cannot parse integer from empty string"
  | .invalidDigit => "invalid digit found in string"
  | .posOverflow => "number too large to fit in target type"

/-- Digit loop of Rust `usize::from_str_radix(_, 16)`: fold hex digits into
an accumulator, failing on a non-digit or on exceeding `USIZE_MAX`. -/
def fromStrRadix16Core : List Char → Nat → Except ParseIntError Nat
  | [], acc => .ok acc
  | c :: cs, acc =>
    match hexDigitVal c with
    | none => .error .invalidDigit
    | some d =>
      if USIZE_MAX < acc * 16 + d then .error .posOverflow
      else fromStrRadix16Core cs (acc * 16 + d)

/-- Rust `usize::from_str_radix(s, 16)`: empty input fails, a single leading
`+` sign is allowed (a `-` is not a hex digit and therefore fails for the
unsigned type), then the digit loop runs. -/
def from_str_radix_16 (s : List Char) : Except ParseIntError Nat :=
  match s with
  | [] => .error .empty
  | c :: cs =>
    if c = '+' then
      match cs with
      | [] => .error .invalidDigit
      | _ :: _ => fromStrRadix16Core cs 0
    else fromStrRadix16Core (c :: cs) 0

/-- Rust `str::trim_start_matches("0x")`: remove every repetition of the
leading two-character prefix `0x`. -/
def trim_start_matches_0x : List Char → List Char
  | [] => []
  | [c] => [c]
  | c1 :: c2 :: rest =>
    if c1 = '0' ∧ c2 = 'x' then trim_start_matches_0x rest
    else c1 :: c2 :: rest

/-- Rust `hex_string_try_into_usize`: trim repeated `0x` prefixes, then
parse the remainder in base 16. -/
def hex_string_try_into_usize (s : String) : Except ParseIntError Nat :=
  from_str_radix_16 (trim_start_matches_0x s.data)

/-- `serde_json::Number`: a JSON numeric value is stored as a `u64`
(non-negative integer in range), an `i64` (negative integer in range) or an
`f64` (everything else: fractional values and out-of-range integers).  Only
the payload relevant to `as_u64` is kept; the float payload is opaque. -/
inductive JNumber
  | posInt (n : Nat)
  | negInt (n : Int)
  | float
deriving DecidableEq, Repr

/-- How `serde_json` classifies an exact integer literal into a `Number`:
`u64` if it fits, else `i64` if it fits, else an `f64` approximation. -/
def jsonNumberOfInt (i : Int) : JNumber :=
  if 0 ≤ i ∧ i ≤ 2 ^ 64 - 1 then .posInt i.toNat
  else if -(2 ^ 63) ≤ i ∧ i < 0 then .negInt i
  else .float

/-- `serde_json::Number::as_u64`: the value as a `u64`, available exactly
when the number is stored in the `u64` representation. -/
def JNumber.as_u64 : JNumber → Option Nat
  | .posInt n => some n
  | _ => none

/-- `serde_json::Value`: a JSON tree. -/
inductive Json
  | null
  | bool (b : Bool)
  | num (n : JNumber)
  | str (s : String)
  | arr (xs : List Json)
  | obj (fields : List (String × Json))

/-- Rust `number_or_string`: deserialize a `usize` offset from either a JSON
number (through `Number::as_u64`) or a string (through
`hex_string_try_into_usize`); every other JSON value kind fails.  Errors are
surfaced as their message strings (`DeserializationError::custom`). -/
def number_or_string (v : Json) : Except String Nat :=
  match v with
  | .num number =>
    match number.as_u64 with
    | some n => .ok n
    | none => .error "Cannot cast number to usize."
  | .str s =>
    match hex_string_try_into_usize s with
    | .ok n => .ok n
    | .error e => .error e.description
  | _ => .error "Cannot cast value into usize."

/-- Rust `EntryPointOffset`: newtype over `usize`. -/
structure EntryPointOffset where
  value : Nat
deriving DecidableEq, Repr

/-- Rust `StarknetApiError` (declared in the crate root, outside this
module); only the carried message matters here. -/
inductive StarknetApiError
  | outOfRange (msg : String)
deriving DecidableEq, Repr

/-- Rust `TryFrom<String> for EntryPointOffset`: apply
`hex_string_try_into_usize` and wrap (the `ParseIntError` is converted into
the crate error type). -/
def EntryPointOffset.try_from (s : String) : Except StarknetApiError EntryPointOffset :=
  match hex_string_try_into_usize s with
  | .ok n => .ok (EntryPointOffset.mk n)
  | .error e => .error (.outOfRange e.description)

/-- The derived `Deserialize` of the `EntryPointOffset` newtype: run the
`number_or_string` codec on the wrapped field and wrap the result. -/
def deserializeEntryPointOffset (v : Json) : Except String EntryPointOffset :=
  Except.map EntryPointOffset.mk (number_or_string v)

/-- Rust `EntryPointType`: closed enum of the three entry point kinds, in
declaration order `Constructor`, `External`, `L1Handler`. -/
inductive EntryPointType
  | Constructor
  | External
  | L1Handler
deriving DecidableEq, Repr

/-- Rust `#[default]` on the `External` variant. -/
instance : Inhabited EntryPointType := ⟨EntryPointType.External⟩

/-- The derived `Deserialize` of `EntryPointType` from a JSON string: the
three renamed tags succeed, anything else is an unknown variant. -/
def deserializeEntryPointType (s : String) : Except String EntryPointType :=
  if s = "CONSTRUCTOR" then .ok .Constructor
  else if s = "EXTERNAL" then .ok .External
  else if s = "L1_HANDLER" then .ok .L1Handler
  else .error ("unknown variant " ++ s)

/-- Rust `EntryPointSelector`: newtype over the fixed-width `StarkHash`
identifier, whose value is modelled as a `Nat`. -/
structure EntryPointSelector where
  felt : Nat
deriving DecidableEq, Repr

/-- Modelled from the spec: the identifier-construction facility
(`TryFrom` from a string for the selector's inner hash type, in
`crate::hash`, not under `src/`) turns a hex string into the fixed-width
`EntryPointSelector`, failing on a malformed charset or width. -/
def selectorFromHexString (s : String) : Except StarknetApiError EntryPointSelector :=
  let ds :=
    match s.data with
    | '0' :: 'x' :: rest => rest
    | t => t
  if ds.isEmpty then .error (.outOfRange s)
  else if !ds.all hexOk then .error (.outOfRange s)
  else if 64 < ds.length then .error (.outOfRange s)
  else .ok (EntryPointSelector.mk (List.foldl hexStep 0 ds))

/-- Rust `EntryPoint`: a selector plus an offset. -/
structure EntryPoint where
  selector : EntryPointSelector
  offset : EntryPointOffset
deriving DecidableEq, Repr

/-- `CasmContractEntryPoint` (external compiled-artifact type): an
arbitrary-precision selector integer plus a numeric `usize` offset. -/
structure CasmContractEntryPoint where
  selector : Nat
  offset : Nat
deriving DecidableEq, Repr

/-- `num_bigint::BigUint::to_str_radix(16)`: lower-case hex digits, no
prefix, `"0"` for zero. -/
def to_str_radix_16 (n : Nat) : String := String.mk (natToHexChars n)

/-- Rust `TryFrom<CasmContractEntryPoint> for EntryPoint`: render the
selector in base 16, build the selector through the identifier-construction
path (propagating its error), and wrap the numeric offset directly. -/
def EntryPoint.try_from (value : CasmContractEntryPoint) : Except StarknetApiError EntryPoint :=
  match selectorFromHexString (to_str_radix_16 value.selector) with
  | .ok sel => .ok (EntryPoint.mk sel (EntryPointOffset.mk value.offset))
  | .error e => .error e

/-- Rust `TypedParameter`: a named, string-typed parameter. -/
structure TypedParameter where
  name : String
  type : String
deriving DecidableEq, Repr

/-- Rust `EventAbiEntry`. -/
structure EventAbiEntry where
  name : String
  keys : List TypedParameter
  data : List TypedParameter
deriving DecidableEq, Repr

/-- Rust `FunctionStateMutability`: single variant `View`, tag `view`. -/
inductive FunctionStateMutability
  | View
deriving DecidableEq, Repr

/-- Rust `FunctionAbiEntry`. -/
structure FunctionAbiEntry where
  name : String
  inputs : List TypedParameter
  outputs : List TypedParameter
  state_mutability : Option FunctionStateMutability
deriving DecidableEq, Repr

/-- Rust `StructMember`: a flattened `TypedParameter` plus an offset. -/
structure StructMember where
  param : TypedParameter
  offset : Nat
deriving DecidableEq, Repr

/-- Rust `StructAbiEntry`. -/
structure StructAbiEntry where
  name : String
  size : Nat
  members : List StructMember
deriving DecidableEq, Repr

/-- Rust `ContractClassAbiEntry`: internally tagged (`type`) union of the
five ABI entry shapes. -/
inductive ContractClassAbiEntry
  | Event (entry : EventAbiEntry)
  | Function (entry : FunctionAbiEntry)
  | Constructor (entry : FunctionAbiEntry)
  | L1Handler (entry : FunctionAbiEntry)
  | Struct (entry : StructAbiEntry)
deriving DecidableEq, Repr

/-- First value bound to a key in a JSON object, as serde's map access
produces it. -/
def jsonLookup : List (String × Json) → String → Option Json
  | [], _ => none
  | (k, v) :: rest, key => if k = key then some v else jsonLookup rest key

/-- A required struct field: missing fields are a decode error. -/
def requireField (fields : List (String × Json)) (name : String) : Except String Json :=
  match jsonLookup fields name with
  | some v => .ok v
  | none => .error ("missing field " ++ name)

/-- serde deserialization of `String` from JSON: strings only. -/
def decodeString : Json → Except String String
  | .str s => .ok s
  | _ => .error "invalid type: expected a string"

/-- serde deserialization of `usize` from JSON: an in-range non-negative
integer number only (the plain integer encoding, no hex strings). -/
def decodeUsizeJson : Json → Except String Nat
  | .num (JNumber.posInt n) => .ok n
  | _ => .error "invalid type: expected usize"

/-- serde deserialization of `Vec<T>` from JSON: an array, elementwise. -/
def decodeListWith (f : Json → Except String α) : Json → Except String (List α)
  | .arr xs => xs.mapM f
  | _ => .error "invalid type: expected a sequence"

/-- The derived `Deserialize` of `TypedParameter`: object with required
`name` and `type` string fields; unknown fields are ignored. -/
def decodeTypedParameter (j : Json) : Except String TypedParameter :=
  match j with
  | .obj fields => do
    let name ← decodeString (← requireField fields "name")
    let ty ← decodeString (← requireField fields "type")
    .ok (TypedParameter.mk name ty)
  | _ => .error "invalid type: expected TypedParameter"

/-- The derived `Deserialize` of `EventAbiEntry`: required `name`, `keys`,
`data`; unknown fields are ignored (the struct itself carries no
`deny_unknown_fields` attribute). -/
def decodeEventAbiEntry (j : Json) : Except String EventAbiEntry :=
  match j with
  | .obj fields => do
    let name ← decodeString (← requireField fields "name")
    let keys ← decodeListWith decodeTypedParameter (← requireField fields "keys")
    let data ← decodeListWith decodeTypedParameter (← requireField fields "data")
    .ok (EventAbiEntry.mk name keys data)
  | _ => .error "invalid type: expected EventAbiEntry"

/-- serde deserialization of the optional `stateMutability` field: absent
defaults to `none`, JSON `null` maps to `none`, `"view"` to `View`. -/
def decodeStateMutabilityField (fields : List (String × Json)) :
    Except String (Option FunctionStateMutability) :=
  match jsonLookup fields "stateMutability" with
  | none => .ok none
  | some .null => .ok none
  | some (.str s) =>
    if s = "view" then .ok (some .View) else .error ("unknown variant " ++ s)
  | some _ => .error "invalid type: expected FunctionStateMutability"

/-- The derived `Deserialize` of `FunctionAbiEntry`: required `name`,
`inputs`, `outputs`, optional renamed `stateMutability`; unknown fields are
ignored (the struct itself carries no `deny_unknown_fields` attribute). -/
def decodeFunctionAbiEntry (j : Json) : Except String FunctionAbiEntry :=
  match j with
  | .obj fields => do
    let name ← decodeString (← requireField fields "name")
    let inputs ← decodeListWith decodeTypedParameter (← requireField fields "inputs")
    let outputs ← decodeListWith decodeTypedParameter (← requireField fields "outputs")
    let sm ← decodeStateMutabilityField fields
    .ok (FunctionAbiEntry.mk name inputs outputs sm)
  | _ => .error "invalid type: expected FunctionAbiEntry"

/-- The derived `Deserialize` of `StructMember`: the declared `offset` field
is consumed and the remaining content is flattened into the inner
`TypedParameter`. -/
def decodeStructMember (j : Json) : Except String StructMember :=
  match j with
  | .obj fields => do
    let offset ← decodeUsizeJson (← requireField fields "offset")
    let param ← decodeTypedParameter (.obj (fields.filter (fun p => p.1 != "offset")))
    .ok (StructMember.mk param offset)
  | _ => .error "invalid type: expected StructMember"

/-- The derived `Deserialize` of `StructAbiEntry`: required `name`, `size`,
`members`; unknown fields are ignored. -/
def decodeStructAbiEntry (j : Json) : Except String StructAbiEntry :=
  match j with
  | .obj fields => do
    let name ← decodeString (← requireField fields "name")
    let size ← decodeUsizeJson (← requireField fields "size")
    let members ← decodeListWith decodeStructMember (← requireField fields "members")
    .ok (StructAbiEntry.mk name size members)
  | _ => .error "invalid type: expected StructAbiEntry"

/-- The derived `Deserialize` of the internally tagged
`ContractClassAbiEntry`: read the `type` tag from the object, route the
remaining content to the matching variant's inner struct, fail on an
unknown tag.  Following serde's actual semantics for internally tagged
enums with newtype variants, the inner struct's own deserializer governs
the content, so fields unknown to the variant are ignored there even
though the enum is annotated with `deny_unknown_fields`. -/
def decodeAbiEntry (j : Json) : Except String ContractClassAbiEntry :=
  match j with
  | .obj fields =>
    match jsonLookup fields "type" with
    | some (.str tag) =>
      let content := Json.obj (fields.filter (fun p => p.1 != "type"))
      if tag = "event" then Except.map ContractClassAbiEntry.Event (decodeEventAbiEntry content)
      else if tag = "function" then
        Except.map ContractClassAbiEntry.Function (decodeFunctionAbiEntry content)
      else if tag = "constructor" then
        Except.map ContractClassAbiEntry.Constructor (decodeFunctionAbiEntry content)
      else if tag = "l1_handler" then
        Except.map ContractClassAbiEntry.L1Handler (decodeFunctionAbiEntry content)
      else if tag = "struct" then
        Except.map ContractClassAbiEntry.Struct (decodeStructAbiEntry content)
      else .error ("unknown variant " ++ tag)
    | some _ => .error "invalid type: the type tag is not a string"
    | none => .error "missing field type"
  | _ => .error "invalid type: expected an internally tagged object"

/-- Rust `Program`: ten opaque `serde_json::Value` fields; `attributes` and
`compiler_version` default to `Value::Null` when absent. -/
structure Program where
  attributes : Json
  builtins : Json
  compiler_version : Json
  data : Json
  debug_info : Json
  hints : Json
  identifiers : Json
  main_scope : Json
  prime : Json
  reference_manager : Json

/-- The derived `Deserialize` of `Program`: every non-defaulted field is
required, field values are taken verbatim as JSON trees, unknown fields are
ignored. -/
def decodeProgram (j : Json) : Except String Program :=
  match j with
  | .obj fields => do
    let builtins ← requireField fields "builtins"
    let data ← requireField fields "data"
    let debug_info ← requireField fields "debug_info"
    let hints ← requireField fields "hints"
    let identifiers ← requireField fields "identifiers"
    let main_scope ← requireField fields "main_scope"
    let prime ← requireField fields "prime"
    let reference_manager ← requireField fields "reference_manager"
    let attributes := (jsonLookup fields "attributes").getD Json.null
    let compiler_version := (jsonLookup fields "compiler_version").getD Json.null
    .ok (Program.mk attributes builtins compiler_version data debug_info hints identifiers
      main_scope prime reference_manager)
  | _ => .error "invalid type: expected Program"

/-- Modelled from the spec: the wire form of `EntryPointSelector`
(deserializer in `crate::core`, not under `src/`) is a hex-string
fixed-width identifier parsed through the identifier-construction
facility. -/
def deserializeSelector (j : Json) : Except String EntryPointSelector :=
  match j with
  | .str s =>
    match selectorFromHexString s with
    | .ok sel => .ok sel
    | .error (.outOfRange m) => .error ("out of range " ++ m)
  | _ => .error "invalid type: expected a hex string selector"

/-- The derived `Deserialize` of `EntryPoint`: required `selector` and
`offset` fields, the offset going through the `number_or_string` codec. -/
def decodeEntryPoint (j : Json) : Except String EntryPoint :=
  match j with
  | .obj fields => do
    let sel ← deserializeSelector (← requireField fields "selector")
    let off ← deserializeEntryPointOffset (← requireField fields "offset")
    .ok (EntryPoint.mk sel off)
  | _ => .error "invalid type: expected EntryPoint"

/-- serde deserialization of `HashMap<EntryPointType, Vec<EntryPoint>>`:
a JSON object whose keys decode as `EntryPointType` tags and whose values
decode as entry point sequences (modelled as the association list in input
order). -/
def decodeEntryPointsByType (j : Json) :
    Except String (List (EntryPointType × List EntryPoint)) :=
  match j with
  | .obj fields =>
    fields.mapM (fun p => do
      let t ← deserializeEntryPointType p.1
      let eps ← decodeListWith decodeEntryPoint p.2
      pure (t, eps))
  | _ => .error "invalid type: expected a map"

/-- Modelled from the spec:
`deserialize_optional_contract_class_abi_entry_vector`
(`src/serde_utils.rs`, not under `src/`) tries to decode the `abi` value as
a sequence of `ContractClassAbiEntry`; on any decode failure the class
still decodes, with the ABI degraded to absence (`none`) instead of an
error. -/
def deserialize_optional_contract_class_abi_entry_vector (j : Json) :
    Option (List ContractClassAbiEntry) :=
  match decodeListWith decodeAbiEntry j with
  | .ok entries => some entries
  | .error _ => none

/-- Rust `ContractClass`: optional ABI, opaque program, entry points by
type. -/
structure ContractClass where
  abi : Option (List ContractClassAbiEntry)
  program : Program
  entry_points_by_type : List (EntryPointType × List EntryPoint)

/-- The derived `Deserialize` of `ContractClass`: the `abi` field defaults
to `None` when absent and goes through the error-swallowing ABI decoder
when present; `program` and `entry_points_by_type` are required and their
decode errors propagate. -/
def decodeContractClass (j : Json) : Except String ContractClass :=
  match j with
  | .obj fields =>
    let abi :=
      match jsonLookup fields "abi" with
      | none => none
      | some v => deserialize_optional_contract_class_abi_entry_vector v
    do
      let program ← decodeProgram (← requireField fields "program")
      let epbt ← decodeEntryPointsByType (← requireField fields "entry_points_by_type")
      .ok (ContractClass.mk abi program epbt)
  | _ => .error "invalid type: expected ContractClass"

/-- The acceptance pattern the spec claims for the offset hex rule: an
optional single `0x` prefix followed by one or more hexadecimal digits
(digit case-insensitive).  Written from the spec's words, to be compared
with the behavior of `hex_string_try_into_usize`. -/
def claimedHexPattern (s : String) : Bool :=
  let ds :=
    match s.data with
    | '0' :: 'x' :: rest => rest
    | t => t
  !ds.isEmpty && ds.all hexOk

/-- The exact acceptance condition of `hex_string_try_into_usize`: after
removing every repetition of a leading `0x` the remainder is a nonempty run
of hexadecimal digits, optionally preceded by a single `+` sign, whose
base-16 value fits in the target unsigned width. -/
def actualHexAccepts (s : String) : Bool :=
  let t := trim_start_matches_0x s.data
  let u := if t.head? = some '+' then t.tail else t
  !u.isEmpty && u.all hexOk && decide (List.foldl hexStep 0 u ≤ USIZE_MAX)

/-- A concrete class payload whose `abi` field is present but is a plain
string, whose program carries null opaque fields, and whose entry point map
holds one empty external list. -/
def sampleClassPayload : Json :=
  Json.obj
    [("abi", Json.str "junk"),
     ("program", Json.obj
       [("builtins", Json.null), ("data", Json.null), ("debug_info", Json.null),
        ("hints", Json.null), ("identifiers", Json.null), ("main_scope", Json.null),
        ("prime", Json.null), ("reference_manager", Json.null)]),
     ("entry_points_by_type", Json.obj [("EXTERNAL", Json.arr [])])]

/-- The `Program` value `sampleClassPayload` decodes to. -/
def sampleProgram : Program :=
  Program.mk Json.null Json.null Json.null Json.null Json.null Json.null Json.null
    Json.null Json.null Json.null

/-- A function ABI entry carrying an extra field `foo` not declared for the
variant. -/
def functionEntryWithExtraField : Json :=
  Json.obj
    [("type", Json.str "function"), ("name", Json.str "f"),
     ("inputs", Json.arr []), ("outputs", Json.arr []),
     ("foo", Json.num (JNumber.posInt 0))]

theorem hexDigitVal_digitChar : ∀ d, d < 16 → hexDigitVal (Nat.digitChar d) = some d := by
  decide

theorem isLowerHexDigit_digitChar : ∀ d, d < 16 → isLowerHexDigit (Nat.digitChar d) = true := by
  decide

theorem lowerHex_hexOk (c : Char) (h : isLowerHexDigit c = true) : hexOk c = true := by
  unfold isLowerHexDigit at h
  split at h
  case isTrue hp =>
    unfold hexOk hexDigitVal
    rcases hp with h1 | h2
    · rw [if_pos h1]; rfl
    · by_cases h0 : '0' ≤ c ∧ c ≤ '9'
      · rw [if_pos h0]; rfl
      · rw [if_neg h0, if_pos h2]; rfl
  case isFalse => exact absurd h (by simp)

theorem all_lower_hexOk (l : List Char) (h : l.all isLowerHexDigit = true) :
    l.all hexOk = true := by
  induction l with
  | nil => rfl
  | cons c cs ih =>
    simp only [List.all_cons, Bool.and_eq_true] at h ⊢
    exact ⟨lowerHex_hexOk c h.1, ih h.2⟩

theorem n_lt_pow16_succ (n : Nat) : n < 16 ^ (n + 1) :=
  lt_of_lt_of_le (Nat.lt_pow_self (by norm_num) n)
    (Nat.pow_le_pow_right (by norm_num) (Nat.le_succ n))

theorem div16_lt_pow (g n : Nat) (h : n < 16 ^ (g + 1)) : n / 16 < 16 ^ g := by
  rw [Nat.div_lt_iff_lt_mul (by norm_num : (0:Nat) < 16)]
  calc n < 16 ^ (g + 1) := h
    _ = 16 ^ g * 16 := by rw [pow_succ]

theorem toHexCore_succ (fuel n : Nat) (acc : List Char) :
    toHexCore (fuel + 1) n acc =
      if n / 16 = 0 then Nat.digitChar (n % 16) :: acc
      else toHexCore fuel (n / 16) (Nat.digitChar (n % 16) :: acc) := rfl

theorem toHexCore_append (fuel : Nat) : ∀ n acc, n < 16 ^ fuel →
    toHexCore fuel n acc = toHexCore fuel n [] ++ acc := by
  induction fuel with
  | zero => intro n acc _; simp [toHexCore]
  | succ g ih =>
    intro n acc h
    by_cases hq : n / 16 = 0
    · rw [toHexCore_succ, toHexCore_succ, if_pos hq, if_pos hq, List.singleton_append]
    · have hlt : n / 16 < 16 ^ g := div16_lt_pow g n h
      rw [toHexCore_succ, toHexCore_succ, if_neg hq, if_neg hq]
      rw [ih _ _ hlt, ih _ [Nat.digitChar (n % 16)] hlt, List.append_assoc,
        List.singleton_append]

theorem toHexCore_ne_nil (fuel n : Nat) (h : n < 16 ^ (fuel + 1)) :
    toHexCore (fuel + 1) n [] ≠ [] := by
  by_cases hq : n / 16 = 0
  · rw [toHexCore_succ, if_pos hq]; simp
  · cases fuel with
    | zero =>
      have hn : n < 16 := by simpa using h
      exact absurd ((Nat.div_eq_zero_iff (by norm_num)).mpr hn) hq
    | succ g =>
      have hlt : n / 16 < 16 ^ (g + 1) := div16_lt_pow (g + 1) n h
      rw [toHexCore_succ, if_neg hq]
      rw [toHexCore_append (g + 1) _ _ hlt]
      simp

theorem toHexCore_all_lower (fuel : Nat) : ∀ n, n < 16 ^ (fuel + 1) →
    (toHexCore (fuel + 1) n []).all isLowerHexDigit = true := by
  induction fuel with
  | zero =>
    intro n h
    have hq : n / 16 = 0 := (Nat.div_eq_zero_iff (by norm_num)).mpr (by simpa using h)
    rw [toHexCore_succ, if_pos hq]
    simp only [List.all_cons, List.all_nil, Bool.and_true]
    exact isLowerHexDigit_digitChar _ (Nat.mod_lt n (by norm_num))
  | succ g ih =>
    intro n h
    by_cases hq : n / 16 = 0
    · rw [toHexCore_succ, if_pos hq]
      simp only [List.all_cons, List.all_nil, Bool.and_true]
      exact isLowerHexDigit_digitChar _ (Nat.mod_lt n (by norm_num))
    · have hlt : n / 16 < 16 ^ (g + 1) := div16_lt_pow (g + 1) n h
      rw [toHexCore_succ, if_neg hq]
      rw [toHexCore_append (g + 1) _ _ hlt, List.all_append]
      rw [ih _ hlt]
      simp only [Bool.true_and, List.all_cons, List.all_nil, Bool.and_true]
      exact isLowerHexDigit_digitChar _ (Nat.mod_lt n (by norm_num))

theorem toHexCore_foldl (fuel : Nat) : ∀ n acc0, n < 16 ^ (fuel + 1) →
    List.foldl hexStep acc0 (toHexCore (fuel + 1) n []) =
      acc0 * 16 ^ (toHexCore (fuel + 1) n []).length + n := by
  induction fuel with
  | zero =>
    intro n acc0 h
    have hn : n < 16 := by simpa using h
    have hq : n / 16 = 0 := (Nat.div_eq_zero_iff (by norm_num)).mpr hn
    rw [toHexCore_succ, if_pos hq]
    simp only [List.foldl_cons, List.foldl_nil, List.length_singleton]
    simp only [hexStep, hexDigitVal_digitChar (n % 16) (Nat.mod_lt n (by norm_num)),
      Option.getD_some, pow_one]
    rw [Nat.mod_eq_of_lt hn]
  | succ g ih =>
    intro n acc0 h
    by_cases hq : n / 16 = 0
    · have hn : n < 16 := (Nat.div_eq_zero_iff (by norm_num)).mp hq
      rw [toHexCore_succ, if_pos hq]
      simp only [List.foldl_cons, List.foldl_nil, List.length_singleton]
      simp only [hexStep, hexDigitVal_digitChar (n % 16) (Nat.mod_lt n (by norm_num)),
        Option.getD_some, pow_one]
      rw [Nat.mod_eq_of_lt hn]
    · have hlt : n / 16 < 16 ^ (g + 1) := div16_lt_pow (g + 1) n h
      rw [toHexCore_succ, if_neg hq]
      rw [toHexCore_append (g + 1) _ _ hlt, List.foldl_append, List.length_append,
        ih (n / 16) acc0 hlt]
      simp only [List.foldl_cons, List.foldl_nil, List.length_singleton]
      simp only [hexStep, hexDigitVal_digitChar (n % 16) (Nat.mod_lt n (by norm_num)),
        Option.getD_some]
      calc (acc0 * 16 ^ (toHexCore (g + 1) (n / 16) []).length + n / 16) * 16 + n % 16
          = acc0 * (16 ^ (toHexCore (g + 1) (n / 16) []).length * 16)
              + (16 * (n / 16) + n % 16) := by ring
        _ = acc0 * 16 ^ ((toHexCore (g + 1) (n / 16) []).length + 1) + n := by
            rw [Nat.div_add_mod, pow_succ]

theorem natToHexChars_ne_nil (n : Nat) : natToHexChars n ≠ [] :=
  toHexCore_ne_nil n n (n_lt_pow16_succ n)

theorem natToHexChars_all_lower (n : Nat) : (natToHexChars n).all isLowerHexDigit = true :=
  toHexCore_all_lower n n (n_lt_pow16_succ n)

theorem natToHexChars_foldl (n acc0 : Nat) :
    List.foldl hexStep acc0 (natToHexChars n) =
      acc0 * 16 ^ (natToHexChars n).length + n :=
  toHexCore_foldl n n acc0 (n_lt_pow16_succ n)

theorem foldl_hexStep_le (cs : List Char) : ∀ acc, acc ≤ List.foldl hexStep acc cs := by
  induction cs with
  | nil => intro acc; simp
  | cons c cs ih =>
    intro acc
    rw [List.foldl_cons]
    refine le_trans ?_ (ih (hexStep acc c))
    unfold hexStep
    have h1 : acc * 1 ≤ acc * 16 := Nat.mul_le_mul_left acc (by norm_num)
    omega

theorem fromStrRadix16Core_ok (cs : List Char) : ∀ acc, cs.all hexOk = true →
    List.foldl hexStep acc cs ≤ USIZE_MAX →
    fromStrRadix16Core cs acc = .ok (List.foldl hexStep acc cs) := by
  induction cs with
  | nil => intro acc _ _; rfl
  | cons c cs ih =>
    intro acc hall hle
    simp only [List.all_cons, Bool.and_eq_true] at hall
    obtain ⟨d, hd⟩ := Option.isSome_iff_exists.mp hall.1
    have hstep : hexStep acc c = acc * 16 + d := by simp [hexStep, hd]
    have hle' : hexStep acc c ≤ USIZE_MAX :=
      le_trans (foldl_hexStep_le cs (hexStep acc c)) (by rw [← List.foldl_cons]; exact hle)
    simp only [fromStrRadix16Core, hd]
    rw [if_neg (by omega : ¬ USIZE_MAX < acc * 16 + d)]
    rw [List.foldl_cons, ← hstep]
    exact ih (hexStep acc c) hall.2 (by rw [← List.foldl_cons]; exact hle)

theorem fromStrRadix16Core_ok_inv (cs : List Char) : ∀ acc n, acc ≤ USIZE_MAX →
    fromStrRadix16Core cs acc = .ok n →
    cs.all hexOk = true ∧ n = List.foldl hexStep acc cs ∧ n ≤ USIZE_MAX := by
  induction cs with
  | nil =>
    intro acc n hacc h
    simp only [fromStrRadix16Core, Except.ok.injEq] at h
    subst h
    exact ⟨rfl, rfl, hacc⟩
  | cons c cs ih =>
    intro acc n hacc h
    cases hd : hexDigitVal c with
    | none =>
      simp only [fromStrRadix16Core, hd] at h
      exact absurd h (by simp)
    | some d =>
      simp only [fromStrRadix16Core, hd] at h
      by_cases hov : USIZE_MAX < acc * 16 + d
      · rw [if_pos hov] at h; exact absurd h (by simp)
      · rw [if_neg hov] at h
        have hstep : hexStep acc c = acc * 16 + d := by simp [hexStep, hd]
        obtain ⟨h1, h2, h3⟩ := ih (acc * 16 + d) n (by omega) h
        refine ⟨?_, ?_, h3⟩
        · simp [List.all_cons, h1, hexOk, hd]
        · rw [List.foldl_cons, hstep]; exact h2

theorem trim_all_lower (ds : List Char) (h : ds.all isLowerHexDigit = true) :
    trim_start_matches_0x ds = ds := by
  rcases ds with - | ⟨c1, - | ⟨c2, rest⟩⟩
  · rfl
  · rfl
  · have h2 : isLowerHexDigit c2 = true := by
      simp only [List.all_cons, Bool.and_eq_true] at h
      exact h.2.1
    have hne : ¬(c1 = '0' ∧ c2 = 'x') := by
      rintro ⟨-, h2x⟩
      rw [h2x] at h2
      exact absurd h2 (by decide)
    simp [trim_start_matches_0x, hne]

theorem trim_cons_0x (ds : List Char) :
    trim_start_matches_0x ('0' :: 'x' :: ds) = trim_start_matches_0x ds := by
  simp [trim_start_matches_0x]

theorem hex_roundtrip (x : Nat) (hx : x ≤ USIZE_MAX) :
    hex_string_try_into_usize (usize_to_hex x) = .ok x := by
  show from_str_radix_16 (trim_start_matches_0x ('0' :: 'x' :: natToHexChars x)) = .ok x
  rw [trim_cons_0x, trim_all_lower _ (natToHexChars_all_lower x)]
  obtain ⟨c, cs, hcs⟩ : ∃ c cs, natToHexChars x = c :: cs := by
    cases h : natToHexChars x with
    | nil => exact absurd h (natToHexChars_ne_nil x)
    | cons c cs => exact ⟨c, cs, rfl⟩
  have hcl : isLowerHexDigit c = true := by
    have hl := natToHexChars_all_lower x
    rw [hcs] at hl
    simp only [List.all_cons, Bool.and_eq_true] at hl
    exact hl.1
  have hcp : c ≠ '+' := by
    intro e
    rw [e] at hcl
    exact absurd hcl (by decide)
  have hall : (c :: cs).all hexOk = true := by
    rw [← hcs]
    exact all_lower_hexOk _ (natToHexChars_all_lower x)
  have hfold : List.foldl hexStep 0 (c :: cs) = x := by
    have hf := natToHexChars_foldl x 0
    rw [hcs] at hf
    simpa using hf
  rw [hcs]
  simp only [from_str_radix_16, if_neg hcp]
  rw [fromStrRadix16Core_ok (c :: cs) 0 hall (by rw [hfold]; exact hx), hfold]

/-- Claim C1: for every non-negative integer representable in the target
unsigned width, decoding (via the `number_or_string` offset codec) the hex
string produced by `usize_to_hex` yields the integer back. -/
theorem claim_C1_offset_roundtrip (x : Nat) (hx : x ≤ USIZE_MAX) :
    number_or_string (Json.str (usize_to_hex x)) = .ok x := by
  simp only [number_or_string, hex_roundtrip x hx]

theorem claim_C1_offset_roundtrip_witness :
    255 ≤ USIZE_MAX ∧ number_or_string (Json.str (usize_to_hex 255)) = .ok 255 :=
  ⟨by decide, claim_C1_offset_roundtrip 255 (by decide)⟩

/-- Claim C4: serialization always emits the canonical lower-case
`0x`-prefixed hex string of the value, whatever input form produced it; in
particular `"0x1a"` decodes to 26 and re-encodes to `"0x1a"`, and the
numeric literal 42 decodes to 42 and re-encodes to `"0x2a"`. -/
theorem claim_C4_canonical_hex_output :
    (∀ n : Nat, ∃ ds : List Char,
        usize_to_hex n = String.mk ('0' :: 'x' :: ds) ∧ ds.isEmpty = false ∧
        ds.all isLowerHexDigit = true ∧ List.foldl hexStep 0 ds = n) ∧
    number_or_string (Json.str "0x1a") = .ok 26 ∧
    usize_to_hex 26 = "0x1a" ∧
    number_or_string (Json.num (jsonNumberOfInt 42)) = .ok 42 ∧
    usize_to_hex 42 = "0x2a" := by
  refine ⟨?_, by decide, by decide, by decide, by decide⟩
  intro n
  refine ⟨natToHexChars n, rfl, ?_, natToHexChars_all_lower n,
    by simpa using natToHexChars_foldl n 0⟩
  have hne := natToHexChars_ne_nil n
  rcases h : natToHexChars n with - | ⟨c, cs⟩
  · exact absurd h hne
  · rfl

/-- Claim C5: for every representable value, decoding its JSON
numeric-literal form and decoding its hex-string form through the
`number_or_string` codec yield equal `EntryPointOffset` values. -/
theorem claim_C5_num_and_hex_agree (x : Nat) (hx : x ≤ USIZE_MAX) :
    deserializeEntryPointOffset (Json.num (jsonNumberOfInt (Int.ofNat x))) =
      .ok (EntryPointOffset.mk x) ∧
    deserializeEntryPointOffset (Json.str (usize_to_hex x)) =
      .ok (EntryPointOffset.mk x) := by
  constructor
  · have hmax : ((USIZE_MAX : Nat) : Int) = 2 ^ 64 - 1 := by norm_num [USIZE_MAX]
    have hub : (Int.ofNat x) ≤ 2 ^ 64 - 1 := by
      rw [← hmax]
      exact Int.ofNat_le.mpr hx
    have hn : jsonNumberOfInt (Int.ofNat x) = JNumber.posInt x := by
      unfold jsonNumberOfInt
      rw [if_pos ⟨Int.natCast_nonneg x, hub⟩]
      simp
    rw [hn]
    rfl
  · unfold deserializeEntryPointOffset
    rw [show number_or_string (Json.str (usize_to_hex x)) = Except.ok x from by
      simp only [number_or_string, hex_roundtrip x hx]]
    rfl

theorem claim_C5_num_and_hex_agree_witness :
    deserializeEntryPointOffset (Json.num (jsonNumberOfInt (Int.ofNat 26))) =
      .ok (EntryPointOffset.mk 26) ∧
    deserializeEntryPointOffset (Json.str (usize_to_hex 26)) =
      .ok (EntryPointOffset.mk 26) :=
  claim_C5_num_and_hex_agree 26 (by decide)

/-- Claim C10: the offset hex parser removes every repetition of a leading
`0x` and the underlying parse accepts a leading `+` sign, so `"0x0x1a"` and
`"+1a"` both decode to 26, while the upper-case prefix `"0X1A"` is
rejected. -/
theorem claim_C10_actual_hex_quirks :
    hex_string_try_into_usize "0x0x1a" = .ok 26 ∧
    hex_string_try_into_usize "+1a" = .ok 26 ∧
    hex_string_try_into_usize "0X1A" = .error ParseIntError.invalidDigit ∧
    (∀ s : String, hex_string_try_into_usize (String.mk ('0' :: 'x' :: s.data)) =
      hex_string_try_into_usize s) := by
  refine ⟨by decide, by decide, by decide, ?_⟩
  intro s
  unfold hex_string_try_into_usize
  rw [show (String.mk ('0' :: 'x' :: s.data)).data = '0' :: 'x' :: s.data from rfl,
    trim_cons_0x]

/-- Claim C7 as stated is false on the code: `"0x0x2a"` and `"+2a"` parse
successfully although neither consists of an optional single `0x` prefix
followed by hex digits, and `"10000000000000000"` matches that pattern yet
fails with an overflow. -/
theorem claim_C7_counterexample :
    hex_string_try_into_usize "0x0x2a" = .ok 42 ∧
    claimedHexPattern "0x0x2a" = false ∧
    hex_string_try_into_usize "+2a" = .ok 42 ∧
    claimedHexPattern "+2a" = false ∧
    claimedHexPattern "10000000000000000" = true ∧
    hex_string_try_into_usize "10000000000000000" = .error ParseIntError.posOverflow := by
  decide

/-- Claim C7 amended: the shared offset hex rule (the string branch of
`number_or_string` and `TryFrom` from a string for `EntryPointOffset` both
delegate to `hex_string_try_into_usize`) succeeds exactly on strings that,
after removing every repetition of a leading `0x` and at most one leading
`+` sign, are a nonempty run of hexadecimal digits (case-insensitive) whose
base-16 value fits the target unsigned width. -/
theorem claim_C7_amended_hex_rule :
    (∀ s : String, (∃ n, hex_string_try_into_usize s = .ok n) ↔ actualHexAccepts s = true) ∧
    (∀ s : String, number_or_string (Json.str s) =
      match hex_string_try_into_usize s with
      | .ok n => .ok n
      | .error e => .error e.description) ∧
    (∀ s : String, EntryPointOffset.try_from s =
      match hex_string_try_into_usize s with
      | .ok n => .ok (EntryPointOffset.mk n)
      | .error e => .error (StarknetApiError.outOfRange e.description)) := by
  refine ⟨?_, fun s => rfl, fun s => rfl⟩
  intro s
  unfold hex_string_try_into_usize actualHexAccepts
  cases ht : trim_start_matches_0x s.data with
  | nil => simp [from_str_radix_16]
  | cons c cs =>
    simp only [List.head?_cons, List.tail_cons]
    by_cases hc : c = '+'
    · subst hc
      rw [if_pos rfl]
      cases cs with
      | nil => simp [from_str_radix_16]
      | cons c2 cs2 =>
        rw [show from_str_radix_16 ('+' :: c2 :: cs2) = fromStrRadix16Core (c2 :: cs2) 0 from
          rfl]
        constructor
        · rintro ⟨n, hn⟩
          obtain ⟨h1, h2, h3⟩ :=
            fromStrRadix16Core_ok_inv (c2 :: cs2) 0 n (Nat.zero_le _) hn
          simp [h1, ← h2, h3]
        · intro hacc
          simp only [Bool.and_eq_true, decide_eq_true_eq] at hacc
          exact ⟨_, fromStrRadix16Core_ok (c2 :: cs2) 0 hacc.1.2 hacc.2⟩
    · rw [if_neg (by simp [hc])]
      rw [show from_str_radix_16 (c :: cs) = fromStrRadix16Core (c :: cs) 0 from by
        simp only [from_str_radix_16, if_neg hc]]
      constructor
      · rintro ⟨n, hn⟩
        obtain ⟨h1, h2, h3⟩ :=
          fromStrRadix16Core_ok_inv (c :: cs) 0 n (Nat.zero_le _) hn
        simp [h1, ← h2, h3]
      · intro hacc
        simp only [Bool.and_eq_true, decide_eq_true_eq] at hacc
        exact ⟨_, fromStrRadix16Core_ok (c :: cs) 0 hacc.1.2 hacc.2⟩

theorem claim_C7_amended_hex_rule_witness :
    ∃ n, hex_string_try_into_usize "1a" = .ok n :=
  (claim_C7_amended_hex_rule.1 "1a").mpr (by decide)

/-- Claim C6: decoding an offset from a negative number, a fractional
number, a number exceeding the target unsigned width, a boolean, null, an
array, or an object fails with a descriptive error; the codec succeeds only
on an in-range non-negative number or a string. -/
theorem claim_C6_failure_modes :
    (∀ i : Int, i < 0 → number_or_string (Json.num (jsonNumberOfInt i)) =
      .error "Cannot cast number to usize.") ∧
    number_or_string (Json.num JNumber.float) = .error "Cannot cast number to usize." ∧
    (∀ i : Int, (2 : Int) ^ 64 - 1 < i → number_or_string (Json.num (jsonNumberOfInt i)) =
      .error "Cannot cast number to usize.") ∧
    (∀ b, number_or_string (Json.bool b) = .error "Cannot cast value into usize.") ∧
    number_or_string Json.null = .error "Cannot cast value into usize." ∧
    (∀ xs, number_or_string (Json.arr xs) = .error "Cannot cast value into usize.") ∧
    (∀ fs, number_or_string (Json.obj fs) = .error "Cannot cast value into usize.") ∧
    (∀ v n, number_or_string v = .ok n →
      v = Json.num (JNumber.posInt n) ∨ ∃ s, v = Json.str s) := by
  refine ⟨?_, rfl, ?_, fun b => rfl, rfl, fun xs => rfl, fun fs => rfl, ?_⟩
  · intro i hi
    unfold number_or_string jsonNumberOfInt
    split_ifs with h1 h2
    · exact absurd h1.1 (by omega)
    · rfl
    · rfl
  · intro i hi
    have hpow : (2 : Int) ^ 64 - 1 = 18446744073709551615 := by norm_num
    rw [hpow] at hi
    unfold number_or_string jsonNumberOfInt
    rw [hpow]
    split_ifs with h1 h2
    · exact absurd h1.2 (by omega)
    · exact absurd h2.2 (by omega)
    · rfl
  · intro v n h
    cases v with
    | num jn =>
      cases jn with
      | posInt m =>
        simp only [number_or_string, JNumber.as_u64, Except.ok.injEq] at h
        subst h
        exact Or.inl rfl
      | negInt m => exact absurd h (by simp [number_or_string, JNumber.as_u64])
      | float => exact absurd h (by simp [number_or_string, JNumber.as_u64])
    | str s => exact Or.inr ⟨s, rfl⟩
    | null => exact absurd h (by simp [number_or_string])
    | bool b => exact absurd h (by simp [number_or_string])
    | arr xs => exact absurd h (by simp [number_or_string])
    | obj fs => exact absurd h (by simp [number_or_string])

theorem claim_C6_failure_modes_witness :
    number_or_string (Json.num (jsonNumberOfInt (-1))) = .error "Cannot cast number to usize." ∧
    number_or_string (Json.num (jsonNumberOfInt (2 ^ 64))) =
      .error "Cannot cast number to usize." :=
  ⟨claim_C6_failure_modes.1 (-1) (by decide),
    claim_C6_failure_modes.2.2.1 (2 ^ 64) (by norm_num)⟩

/-- Claim C9: `EntryPointType` decoding succeeds exactly on the three tags
`CONSTRUCTOR`, `EXTERNAL` and `L1_HANDLER`, mapping each to its variant;
the value decoded from `EXTERNAL` equals the default variant, and any
other string fails. -/
theorem claim_C9_entry_point_type :
    deserializeEntryPointType "EXTERNAL" = .ok EntryPointType.External ∧
    (default : EntryPointType) = EntryPointType.External ∧
    deserializeEntryPointType "CONSTRUCTOR" = .ok EntryPointType.Constructor ∧
    deserializeEntryPointType "L1_HANDLER" = .ok EntryPointType.L1Handler ∧
    (∀ s t, deserializeEntryPointType s = .ok t →
      (s = "CONSTRUCTOR" ∧ t = EntryPointType.Constructor) ∨
      (s = "EXTERNAL" ∧ t = EntryPointType.External) ∨
      (s = "L1_HANDLER" ∧ t = EntryPointType.L1Handler)) := by
  refine ⟨by decide, rfl, by decide, by decide, ?_⟩
  intro s t h
  unfold deserializeEntryPointType at h
  split_ifs at h with h1 h2 h3
  · simp only [Except.ok.injEq] at h
    exact Or.inl ⟨h1, h.symm⟩
  · simp only [Except.ok.injEq] at h
    exact Or.inr (Or.inl ⟨h2, h.symm⟩)
  · simp only [Except.ok.injEq] at h
    exact Or.inr (Or.inr ⟨h3, h.symm⟩)

theorem claim_C9_entry_point_type_witness :
    ("EXTERNAL" = "CONSTRUCTOR" ∧ EntryPointType.External = EntryPointType.Constructor) ∨
    ("EXTERNAL" = "EXTERNAL" ∧ EntryPointType.External = EntryPointType.External) ∨
    ("EXTERNAL" = "L1_HANDLER" ∧ EntryPointType.External = EntryPointType.L1Handler) :=
  claim_C9_entry_point_type.2.2.2.2 "EXTERNAL" EntryPointType.External (by decide)

/-- Claim C3, evaluated at the failing input: an unknown `type` tag does
fail, but a function entry carrying the undeclared extra field `foo`
decodes successfully — serde's internally tagged enums with newtype
variants do not enforce the enum's `deny_unknown_fields` attribute on the
variant content, so the extra field is silently ignored. -/
theorem claim_C3_extra_field_accepted :
    decodeAbiEntry functionEntryWithExtraField =
      .ok (ContractClassAbiEntry.Function (FunctionAbiEntry.mk "f" [] [] none)) ∧
    decodeAbiEntry (Json.obj [("type", Json.str "enum"), ("name", Json.str "x")]) =
      .error "unknown variant enum" := by
  constructor
  · rfl
  · rfl

/-- Claim C8: converting a compiled-artifact entry point renders the
selector integer in base 16, builds the selector through the
identifier-construction path with its error propagated, and wraps the
numeric offset directly; selector 255 with offset 10 yields the selector of
hex `ff` and offset 10. -/
theorem claim_C8_casm_conversion :
    (∀ v sel, selectorFromHexString (to_str_radix_16 v.selector) = .ok sel →
      EntryPoint.try_from v = .ok (EntryPoint.mk sel (EntryPointOffset.mk v.offset))) ∧
    (∀ v e, selectorFromHexString (to_str_radix_16 v.selector) = .error e →
      EntryPoint.try_from v = .error e) ∧
    to_str_radix_16 255 = "ff" ∧
    EntryPoint.try_from (CasmContractEntryPoint.mk 255 10) =
      .ok (EntryPoint.mk (EntryPointSelector.mk 255) (EntryPointOffset.mk 10)) ∧
    selectorFromHexString "ff" = .ok (EntryPointSelector.mk 255) := by
  refine ⟨?_, ?_, by decide, by decide, by decide⟩
  · intro v sel h
    unfold EntryPoint.try_from
    rw [h]
  · intro v e h
    unfold EntryPoint.try_from
    rw [h]

theorem claim_C8_casm_conversion_witness :
    EntryPoint.try_from (CasmContractEntryPoint.mk 255 10) =
      .ok (EntryPoint.mk (EntryPointSelector.mk 255)
        (EntryPointOffset.mk (CasmContractEntryPoint.mk 255 10).offset)) :=
  claim_C8_casm_conversion.1 (CasmContractEntryPoint.mk 255 10)
    (EntryPointSelector.mk 255) (by decide)

/-- Claim C2: when the `abi` field is present but fails to decode as a
sequence of ABI entries, the class still decodes with `abi = none` and the
other two fields populated as usual; decode errors in `program` or
`entry_points_by_type` propagate instead of being swallowed. -/
theorem claim_C2_abi_errors_swallowed :
    (∀ (fields : List (String × Json)) v e pv p ev m,
      jsonLookup fields "abi" = some v →
      decodeListWith decodeAbiEntry v = .error e →
      jsonLookup fields "program" = some pv →
      decodeProgram pv = .ok p →
      jsonLookup fields "entry_points_by_type" = some ev →
      decodeEntryPointsByType ev = .ok m →
      decodeContractClass (Json.obj fields) = .ok (ContractClass.mk none p m)) ∧
    (∀ fields pv e, jsonLookup fields "program" = some pv →
      decodeProgram pv = .error e →
      decodeContractClass (Json.obj fields) = .error e) ∧
    (∀ fields pv p ev e, jsonLookup fields "program" = some pv →
      decodeProgram pv = .ok p →
      jsonLookup fields "entry_points_by_type" = some ev →
      decodeEntryPointsByType ev = .error e →
      decodeContractClass (Json.obj fields) = .error e) := by
  refine ⟨?_, ?_, ?_⟩
  · intro fields v e pv p ev m habi herr hpv hp hev hm
    simp [decodeContractClass, requireField, habi, hpv, hev, hp, hm,
      deserialize_optional_contract_class_abi_entry_vector, herr, Bind.bind, Except.bind]
  · intro fields pv e hpv hp
    simp [decodeContractClass, requireField, hpv, hp, Bind.bind, Except.bind]
  · intro fields pv p ev e hpv hp hev hm
    simp [decodeContractClass, requireField, hpv, hp, hev, hm, Bind.bind, Except.bind]

theorem claim_C2_abi_errors_swallowed_witness :
    decodeContractClass sampleClassPayload =
      .ok (ContractClass.mk none sampleProgram [(EntryPointType.External, [])]) :=
  claim_C2_abi_errors_swallowed.1 _ (Json.str "junk")
    "invalid type: expected a sequence" _ sampleProgram _ [(EntryPointType.External, [])]
    rfl rfl rfl rfl rfl rfl
